import Mathlib

/-!
Verification development for the session-management core of a Next.js /
Firebase authentication repository.

The embedded code comes from:
  * src/server/api/routers/auth/auth-service.ts
  * src/server/api/routers/_lib/utils/cookie-management.ts

JavaScript strings are modelled as lists of Unicode code points (`Str`).
Redis sorted sets are modelled as lists of (member, score) pairs kept in
ascending (score, member-lex) order, matching Redis rank semantics.  The
external collaborators (Firebase token verification, the user-profile
repository, argon2, Math.random, Date.now and the success/failure of a
Redis MULTI batch) cross the boundary as explicit inputs.
-/

namespace FirebaseAuth

/-- JavaScript strings modelled as lists of Unicode code points. -/
abbrev Str := List Nat

/-- Convert a Lean string literal to its code-point model. -/
def strOfString (s : String) : Str := s.toList.map Char.toNat

/-- Decimal rendering of a number, as in JS template interpolation. -/
def strOfNat (n : Nat) : Str := strOfString (toString n)

/-- Source constant SESSION_TOKENS_PREFIX = "session-tokens:" (code points). -/
def sessionTokensKeyBase : Str :=
  [115, 101, 115, 115, 105, 111, 110, 45, 116, 111, 107, 101, 110, 115, 58]

/-- Source: getSessionTokensKey, the per-user Redis key. -/
def getSessionTokensKey (userId : Str) : Str := sessionTokensKeyBase ++ userId

/-- Source constant SESSION_TOKEN_COOKIE_KEY = "x-session-token". -/
def SESSION_TOKEN_COOKIE_KEY : Str := strOfString ("x-session-token")

/-- Source constant USER_ID_COOKIE_KEY = "x-user-id". -/
def USER_ID_COOKIE_KEY : Str := strOfString ("x-user-id")

/-- Source: expiresIn = 60 * 60 * 24 * 5, five days in seconds. -/
def EXPIRES_IN : Nat := 60 * 60 * 24 * 5

/-- Source constant SESSIONS_TOKEN_LIMIT = 8. -/
def SESSIONS_TOKEN_LIMIT : Nat := 8

/-- Lexicographic order on byte/code-point strings, as Redis compares members. -/
def strLt : Str → Str → Bool
  | [], [] => false
  | [], _ :: _ => true
  | _ :: _, [] => false
  | a :: as, b :: bs => if a < b then true else if a = b then strLt as bs else false

/-- Redis sorted-set entry order: by score, ties broken by member lexicographic order. -/
def entryLt (a b : Str × Nat) : Bool :=
  if a.2 < b.2 then true else if a.2 = b.2 then strLt a.1 b.1 else false

/-- A Redis sorted set: (member, score) pairs in ascending (score, member) order. -/
abbrev ZSet := List (Str × Nat)

/-- Redis ZSCORE: the score of a member, if present. -/
def zscore (m : Str) : ZSet → Option Nat
  | [] => none
  | (m2, s) :: rest => if m2 = m then some s else zscore m rest

/-- Remove every occurrence of a member (Redis ZREM on one member). -/
def zremMember (m : Str) : ZSet → ZSet
  | [] => []
  | (m2, s) :: rest => if m2 = m then zremMember m rest else (m2, s) :: zremMember m rest

/-- Insert an entry at its rank position (ascending (score, member) order). -/
def zinsert (m : Str) (s : Nat) : ZSet → ZSet
  | [] => [(m, s)]
  | e :: rest => if entryLt (m, s) e then (m, s) :: e :: rest else e :: zinsert m s rest

/-- Redis ZADD: insert the member or update its score. -/
def zadd (m : Str) (s : Nat) (z : ZSet) : ZSet := zinsert m s (zremMember m z)

/-- Association-list lookup for the keyed store. -/
def alookup {α : Type} (k : Str) : List (Str × α) → Option α
  | [] => none
  | (k2, v) :: rest => if k2 = k then some v else alookup k rest

/-- Association-list update-or-append for the keyed store. -/
def aset {α : Type} (k : Str) (v : α) : List (Str × α) → List (Str × α)
  | [] => [(k, v)]
  | (k2, w) :: rest => if k2 = k then (k2, v) :: rest else (k2, w) :: aset k v rest

/-- The Redis store visible to the auth service: sorted sets and key TTLs. -/
structure Store where
  zsets : List (Str × ZSet)
  ttls : List (Str × Nat)
deriving DecidableEq

/-- The sorted set stored at a key (empty when the key is absent). -/
def getZ (st : Store) (k : Str) : ZSet := (alookup k st.zsets).getD []

/-- Effect of a ZADD command on the store (creates the key if absent). -/
def storeZadd (st : Store) (k : Str) (m : Str) (s : Nat) : Store :=
  { st with zsets := aset k (zadd m s (getZ st k)) st.zsets }

/-- Effect of a ZREM command on the store (no effect on an absent key). -/
def storeZrem (st : Store) (k : Str) (m : Str) : Store :=
  match alookup k st.zsets with
  | none => st
  | some z => { st with zsets := aset k (zremMember m z) st.zsets }

/-- Effect of an EXPIRE command: set the key TTL when the key exists. -/
def storeExpire (st : Store) (k : Str) (ttl : Nat) : Store :=
  match alookup k st.zsets with
  | none => st
  | some _ => { st with ttls := aset k ttl st.ttls }

/-- Effect of ZREMRANGEBYRANK key 0 (n-1): drop the n lowest-ranked entries. -/
def storeZremrangebyrank (st : Store) (k : Str) (n : Nat) : Store :=
  match alookup k st.zsets with
  | none => st
  | some z => { st with zsets := aset k (z.drop n) st.zsets }

/-- The empty Redis store. -/
def emptyStore : Store := ⟨[], []⟩

/-- TRPC error codes used by the auth service. -/
inductive ErrCode where
  | UNAUTHORIZED
  | INTERNAL_SERVER_ERROR
deriving DecidableEq

/-- A TRPCError value: code plus message. -/
structure TRPCError where
  code : ErrCode
  message : Str
deriving DecidableEq

/-- A thrown JavaScript value as the catch block in login discriminates it.
TRPCError extends Error in the trpc library, so a TRPCError instance also
satisfies the `instanceof Error` test. -/
inductive Thrown where
  | trpc (e : TRPCError)
  | jsError (msg : Str)
  | nonError
deriving DecidableEq

/-- The `instanceof Error` test: true for TRPCError (a subclass of Error)
and for plain Error values. -/
def instanceofError : Thrown → Bool
  | Thrown.trpc _ => true
  | Thrown.jsError _ => true
  | Thrown.nonError => false

/-- The `.message` property read by the catch block. -/
def thrownMessage : Thrown → Str
  | Thrown.trpc e => e.message
  | Thrown.jsError m => m
  | Thrown.nonError => []

/-- A user-profile record as the external repository returns it. -/
structure User where
  id : Str
  email : Str
  name : Option Str
  imageUrl : Option Str
deriving DecidableEq

/-- A Set-Cookie header as emitted by cookie-management.ts: name, value and
the absolute Expires instant in epoch milliseconds. -/
structure SetCookie where
  name : Str
  value : Str
  expiresAtMs : Nat
deriving DecidableEq

/-- Source createSecureCookie: the Expires instant is
Date.now() + args.expiresIn, in epoch milliseconds, with expiresIn added raw. -/
def createSecureCookie (nowMs : Nat) (expiresIn : Nat) (name value : Str) : SetCookie :=
  { name := name, value := value, expiresAtMs := nowMs + expiresIn }

/-- Source deleteCookie: empty value, Expires = new Date(0). -/
def deleteCookieVal (name : Str) : SetCookie :=
  { name := name, value := [], expiresAtMs := 0 }

/-- Application-visible state: the Redis store, the external user-profile
repository keyed by user id, and the Set-Cookie headers appended so far. -/
structure AppState where
  store : Store
  users : List (Str × User)
  cookies : List SetCookie
deriving DecidableEq

/-- The empty application state. -/
def emptyApp : AppState := ⟨emptyStore, [], []⟩

/-- Characters encodeURIComponent leaves unescaped (ASCII fragment):
letters, digits, and - _ . ! ~ * apostrophe ( ). -/
def isUnreservedChar (n : Nat) : Bool :=
  (65 ≤ n && n ≤ 90) || (97 ≤ n && n ≤ 122) || (48 ≤ n && n ≤ 57) ||
  n = 45 || n = 95 || n = 46 || n = 33 || n = 126 || n = 42 || n = 39 || n = 40 || n = 41

/-- Uppercase hexadecimal digit character of a value below 16. -/
def hexDig (k : Nat) : Nat := if k < 10 then 48 + k else 55 + k

/-- Numeric value of an uppercase hexadecimal digit character. -/
def hexVal (n : Nat) : Nat := if n < 58 then n - 48 else n - 55

/-- Percent-encoding of a single character (ASCII fragment of the JS builtin). -/
def encodeChar (c : Nat) : Str :=
  if isUnreservedChar c then [c] else [37, hexDig (c / 16), hexDig (c % 16)]

/-- Modelled from the spec: the transport encoding applied to the session
token before it is placed in the cookie — the ASCII fragment of the JS
builtin encodeURIComponent (37 is the percent character). -/
def encodeURIComponent : Str → Str
  | [] => []
  | c :: rest => encodeChar c ++ encodeURIComponent rest

/-- Modelled from the spec: the transport decoding applied by
validateSessionToken — the ASCII fragment of the JS builtin
decodeURIComponent.  A percent sign followed by two characters is decoded
as a hex escape; anything else passes through. -/
def decodeURIComponent : Str → Str
  | [] => []
  | c :: rest =>
    if c = 37 then
      match rest with
      | h1 :: h2 :: rest2 => (16 * hexVal h1 + hexVal h2) :: decodeURIComponent rest2
      | [h1] => [c, h1]
      | [] => [c]
    else c :: decodeURIComponent rest

/-- Source generateSessionToken's raw token:
the template string userId "-" Date.now() "-" Math.random(), with 45 the
hyphen code point and the random number rendered as text. -/
def mkRawToken (userId : Str) (nowMs : Nat) (rand : Str) : Str :=
  userId ++ [45] ++ strOfNat nowMs ++ [45] ++ rand

/-- Source generateSessionToken: hash the raw token.  The argon2 hash is an
external library; it enters the model as the function argument hash. -/
def generateSessionToken (hash : Str → Str) (userId : Str) (nowMs : Nat) (rand : Str) : Str :=
  hash (mkRawToken userId nowMs rand)

/-- Identity stand-in for the hash in concrete scenarios. -/
def idHash : Str → Str := fun s => s

/-- Redis commands issued by checkSessionTokenValidity, recorded as a trace. -/
inductive RedisCmd where
  | zscoreCmd (key member : Str)
  | zremCmd (key member : Str)
deriving DecidableEq

/-- Result of checkSessionTokenValidity: the boolean answer, the store after
the call, and the commands issued against the store. -/
structure CheckResult where
  valid : Bool
  store : Store
  issued : List RedisCmd
deriving DecidableEq

/-- Source checkSessionTokenValidity: read the token's score; if present and
strictly above the current epoch-second timestamp return true; otherwise
issue a ZREM (unconditionally on this path) and return false. -/
def checkSessionTokenValidity (nowMs : Nat) (userId sessionToken : Str) (st : Store) :
    CheckResult :=
  let sessionKey := getSessionTokensKey userId
  let currentTimestamp := nowMs / 1000
  match zscore sessionToken (getZ st sessionKey) with
  | some s =>
    if s > currentTimestamp then
      ⟨true, st, [RedisCmd.zscoreCmd sessionKey sessionToken]⟩
    else
      ⟨false, storeZrem st sessionKey sessionToken,
        [RedisCmd.zscoreCmd sessionKey sessionToken,
         RedisCmd.zremCmd sessionKey sessionToken]⟩
  | none =>
    ⟨false, storeZrem st sessionKey sessionToken,
      [RedisCmd.zscoreCmd sessionKey sessionToken,
       RedisCmd.zremCmd sessionKey sessionToken]⟩

/-- Source addUserSession: queue ZADD (score = now in seconds + expiresIn),
ZCOUNT -inf +inf, EXPIRE in one MULTI batch; execOk is whether the batch
returned well-formed, error-free results (otherwise a TRPCError
INTERNAL_SERVER_ERROR is thrown).  If the post-insert cardinality exceeds
the limit of 8, a follow-up ZREMRANGEBYRANK 0 (count-8-1) is issued. -/
def addUserSession (execOk : Bool) (nowMs : Nat) (userId sessionToken : Str)
    (expiresIn : Nat) (st : Store) : Except TRPCError Store :=
  let sessionKey := getSessionTokensKey userId
  let score := nowMs / 1000 + expiresIn
  if execOk then
    let st1 := storeZadd st sessionKey sessionToken score
    let sessionTokensCount := (getZ st1 sessionKey).length
    let st2 := storeExpire st1 sessionKey expiresIn
    if sessionTokensCount > SESSIONS_TOKEN_LIMIT then
      let tokensToRemove := sessionTokensCount - 8
      Except.ok (storeZremrangebyrank st2 sessionKey tokensToRemove)
    else
      Except.ok st2
  else
    Except.error
      { code := ErrCode.INTERNAL_SERVER_ERROR,
        message := strOfString ("Failed to add user session") }

/-- Source deleteSessionToken: a single ZREM on the user's session key. -/
def deleteSessionToken (userId sessionToken : Str) (st : Store) : Store :=
  storeZrem st (getSessionTokensKey userId) sessionToken

/-- Outcome of the external Firebase verifyIdToken call: a decoded token
with optional email, name and picture claims, or a thrown failure. -/
inductive VerifyOutcome where
  | verified (email : Option Str) (name : Option Str) (picture : Option Str)
  | verifyThrew (e : Thrown)

/-- The external inputs one login call consumes: the identity-provider
response, the profile-store upsert response, whether the Redis batch
succeeded, the clock, the Math.random text, and the argon2 hash. -/
structure LoginEnv where
  verify : VerifyOutcome
  upsertResp : Option User
  pipeOk : Bool
  nowMs : Nat
  rand : Str
  hash : Str → Str

/-- Source login, catch block: `error instanceof Error` is tested first and
rewraps as UNAUTHORIZED with the error's message; the `instanceof
TRPCError` test comes second; anything else becomes INTERNAL_SERVER_ERROR. -/
def loginCatch (e : Thrown) : TRPCError :=
  if instanceofError e then
    { code := ErrCode.UNAUTHORIZED, message := thrownMessage e }
  else
    match e with
    | Thrown.trpc err => err
    | _ => { code := ErrCode.INTERNAL_SERVER_ERROR, message := strOfString ("Failed to login") }

/-- Source login, try block: verify the access token (throwing UNAUTHORIZED
when the email claim is missing), upsert the profile (throwing
INTERNAL_SERVER_ERROR when the store returns null), mint a session token,
register the session, then emit the two cookies and return the user. -/
def loginTry (env : LoginEnv) (st : AppState) : Except Thrown (User × AppState) :=
  match env.verify with
  | VerifyOutcome.verifyThrew e => Except.error e
  | VerifyOutcome.verified email _name _picture =>
    match email with
    | none =>
      Except.error (Thrown.trpc
        { code := ErrCode.UNAUTHORIZED, message := strOfString ("The access token is invalid") })
    | some _ =>
      match env.upsertResp with
      | none =>
        Except.error (Thrown.trpc
          { code := ErrCode.INTERNAL_SERVER_ERROR, message := strOfString ("Failed to login") })
      | some userInfo =>
        let st1 : AppState := { st with users := aset userInfo.id userInfo st.users }
        let expiresIn := EXPIRES_IN
        let sessionToken := generateSessionToken env.hash userInfo.id env.nowMs env.rand
        match addUserSession env.pipeOk env.nowMs userInfo.id sessionToken expiresIn st1.store with
        | Except.error e => Except.error (Thrown.trpc e)
        | Except.ok store2 =>
          let c1 := createSecureCookie env.nowMs expiresIn SESSION_TOKEN_COOKIE_KEY
            (encodeURIComponent sessionToken)
          let c2 := createSecureCookie env.nowMs expiresIn USER_ID_COOKIE_KEY userInfo.id
          Except.ok (userInfo,
            { store := store2, users := st1.users, cookies := st1.cookies ++ [c1, c2] })

/-- Source authService.login: the try block with its catch-normalization. -/
def login (env : LoginEnv) (st : AppState) : Except TRPCError (User × AppState) :=
  match loginTry env st with
  | Except.ok r => Except.ok r
  | Except.error e => Except.error (loginCatch e)

/-- Source authService.logout: remove the registry member, then clear both
cookies.  Total: no failure path exists at the Redis semantics level. -/
def logout (userId sessionToken : Str) (st : AppState) : AppState :=
  { store := deleteSessionToken userId sessionToken st.store,
    users := st.users,
    cookies := st.cookies ++
      [deleteCookieVal SESSION_TOKEN_COOKIE_KEY, deleteCookieVal USER_ID_COOKIE_KEY] }

/-- Result of validateSessionToken: the tagged union from the source. -/
inductive ValidateResult where
  | success (userInfo : Option User) (sessionToken : Str)
  | failure
deriving DecidableEq

/-- Source authService.validateSessionToken: decode the transport-encoded
token, check liveness; on success return the decoded token together with
the (possibly null) profile fetched by id. -/
def validateSessionToken (nowMs : Nat) (encodedSessionToken userId : Str) (st : AppState) :
    ValidateResult × AppState :=
  let decodedSessionToken := decodeURIComponent encodedSessionToken
  let chk := checkSessionTokenValidity nowMs userId decodedSessionToken st.store
  let st1 : AppState := { st with store := chk.store }
  if chk.valid then
    (ValidateResult.success (alookup userId st.users) decodedSessionToken, st1)
  else
    (ValidateResult.failure, st1)

/-- Run a sequence of (nowMs, token) session additions for one user,
with every Redis batch succeeding. -/
def runAdds (userId : Str) : List (Nat × Str) → Store → Store
  | [], st => st
  | (nowMs, tok) :: rest, st =>
    match addUserSession true nowMs userId tok EXPIRES_IN st with
    | Except.ok st2 => runAdds userId rest st2
    | Except.error _ => st

/-- Derived abbreviation for stating lemmas: the cap-enforcement pass that
addUserSession applies to the post-insert sorted set. -/
def prune8 (z : ZSet) : ZSet := if z.length > 8 then z.drop (z.length - 8) else z

/-- The post-login state, for concrete scenarios (identity on failure). -/
def loginResultOf (env : LoginEnv) (st : AppState) : AppState :=
  match login env st with
  | Except.ok p => p.2
  | Except.error _ => st

/-- Concrete user for the scenarios. -/
def u1 : User := { id := strOfString ("u1"), email := strOfString ("e"), name := none, imageUrl := none }

/-- Concrete Math.random rendering for the scenarios. -/
def rand0 : Str := strOfString ("0.5")

/-- Concrete per-user session key for u1. -/
def keyU1 : Str := getSessionTokensKey u1.id

/-- Successful-login environment: verified token with email, profile store
returns u1, Redis batch succeeds, clock at 0. -/
def envOk : LoginEnv :=
  { verify := VerifyOutcome.verified (some (strOfString ("e"))) none none,
    upsertResp := some u1, pipeOk := true, nowMs := 0, rand := rand0, hash := idHash }

/-- Environment in which the profile store returns no record. -/
def envUpsertNull : LoginEnv :=
  { verify := VerifyOutcome.verified (some (strOfString ("e"))) none none,
    upsertResp := none, pipeOk := true, nowMs := 0, rand := rand0, hash := idHash }

/-- Environment in which the Redis session-registry batch fails. -/
def envPipeFail : LoginEnv :=
  { verify := VerifyOutcome.verified (some (strOfString ("e"))) none none,
    upsertResp := some u1, pipeOk := false, nowMs := 0, rand := rand0, hash := idHash }

/-- Application state after a successful login from the empty state. -/
def stOk : AppState := loginResultOf envOk emptyApp

/-- The session token minted in the successful concrete login. -/
def tokOk : Str := generateSessionToken idHash u1.id 0 rand0

/-- Store after one successful session addition from the empty store. -/
def stAdd1 : Store := ⟨[(keyU1, [([97], 432000)])], [(keyU1, 432000)]⟩

/-- Nine consecutive logins for one user: times 0..8 seconds, tokens t0..t8. -/
def nineLogins : List (Nat × Str) := (List.range 9).map (fun i => (i * 1000, [116, 48 + i]))

/-- Registry after the nine consecutive logins. -/
def st9 : Store := runAdds u1.id nineLogins emptyStore

/-- Two logins at t=0 and t=10 seconds with tokens a and b. -/
def twoLogins : List (Nat × Str) := [(0, [97]), (10000, [98])]

/-- Registry after the two concrete logins. -/
def st2L : Store := runAdds u1.id twoLogins emptyStore

/-- Store holding one entry for u1 with expiry score 432000. -/
def stC3 : Store := ⟨[(keyU1, [([97], 432000)])], []⟩

/-- Application state with a live session for u1 but an empty profile store. -/
def stC10 : AppState := { store := ⟨[(keyU1, [([97], 77)])], []⟩, users := [], cookies := [] }

/-- Eight logins for u1 within the same epoch second (t = 0), with tokens
v0..v7 that sort lexicographically above the token the next login mints. -/
def eightTies : List (Nat × Str) := (List.range 8).map (fun i => (0, [118, 48 + i]))

/-- Reachable state after the eight same-second logins. -/
def stTies : AppState := { store := runAdds u1.id eightTies emptyStore, users := [], cookies := [] }

/-! Helper lemmas about the association lists, the sorted-set model and the
percent-encoding model. -/

/-- Looking up a key immediately after setting it yields the new value. -/
theorem alookup_aset_self {α : Type} (k : Str) (v : α) (l : List (Str × α)) :
    alookup k (aset k v l) = some v := by
  induction l with
  | nil => simp [aset, alookup]
  | cons p rest ih =>
    obtain ⟨k2, w⟩ := p
    by_cases h : k2 = k
    · simp [aset, alookup, h]
    · simp [aset, alookup, h, ih]

/-- Setting a key to the value it already holds leaves the list unchanged. -/
theorem aset_of_alookup_eq {α : Type} (k : Str) (v : α) (l : List (Str × α))
    (h : alookup k l = some v) : aset k v l = l := by
  induction l with
  | nil => simp [alookup] at h
  | cons p rest ih =>
    obtain ⟨k2, w⟩ := p
    by_cases hk : k2 = k
    · simp [alookup, hk] at h
      simp [aset, hk, h]
    · simp [alookup, hk] at h
      simp [aset, hk, ih h]

/-- Overwriting a key twice is the same as overwriting it once. -/
theorem aset_aset {α : Type} (k : Str) (v1 v2 : α) (l : List (Str × α)) :
    aset k v2 (aset k v1 l) = aset k v2 l := by
  induction l with
  | nil => simp [aset]
  | cons p rest ih =>
    obtain ⟨k2, w⟩ := p
    by_cases hk : k2 = k
    · simp [aset, hk]
    · simp [aset, hk, ih]

/-- A member scores none exactly when it is absent. -/
theorem zscore_eq_none_iff (m : Str) (z : ZSet) :
    zscore m z = none ↔ ∀ e ∈ z, e.1 ≠ m := by
  induction z with
  | nil => simp [zscore]
  | cons e rest ih =>
    obtain ⟨m2, s⟩ := e
    by_cases h : m2 = m
    · simp [zscore, h]
    · simp [zscore, h, ih]

/-- Removing an absent member does nothing. -/
theorem zremMember_of_forall_ne (m : Str) (z : ZSet) (h : ∀ e ∈ z, e.1 ≠ m) :
    zremMember m z = z := by
  induction z with
  | nil => rfl
  | cons e rest ih =>
    obtain ⟨m2, s⟩ := e
    have h2 : m2 ≠ m := h (m2, s) (by simp)
    simp [zremMember, h2]
    exact ih (fun e he => h e (by simp [he]))

/-- After removal a member has no score. -/
theorem zscore_zremMember_self (m : Str) (z : ZSet) :
    zscore m (zremMember m z) = none := by
  induction z with
  | nil => rfl
  | cons e rest ih =>
    obtain ⟨m2, s⟩ := e
    by_cases h : m2 = m
    · simp [zremMember, h, ih]
    · simp [zremMember, zscore, h, ih]

/-- Removing a member twice is the same as removing it once. -/
theorem zremMember_idem (m : Str) (z : ZSet) :
    zremMember m (zremMember m z) = zremMember m z := by
  induction z with
  | nil => rfl
  | cons e rest ih =>
    obtain ⟨m2, s⟩ := e
    by_cases h : m2 = m
    · simp [zremMember, h, ih]
    · simp [zremMember, h, ih]

/-- Lexicographic order on strings is asymmetric. -/
theorem strLt_asymm (a : Str) : ∀ b : Str, strLt a b = true → strLt b a = false := by
  induction a with
  | nil =>
    intro b h
    cases b with
    | nil => simp [strLt] at h
    | cons y ys => simp [strLt]
  | cons x xs ih =>
    intro b h
    cases b with
    | nil => simp [strLt] at h
    | cons y ys =>
      by_cases h1 : x < y
      · have h2 : ¬ y < x := by omega
        have h3 : ¬ y = x := by omega
        simp [strLt, h2, h3]
      · by_cases h4 : x = y
        · subst h4
          simp [strLt, h1] at h
          simp [strLt, h1, ih ys h]
        · simp [strLt, h1, h4] at h

/-- The sorted-set entry order is asymmetric. -/
theorem entryLt_asymm (a b : Str × Nat) (h : entryLt a b = true) : entryLt b a = false := by
  unfold entryLt at h ⊢
  by_cases h1 : a.2 < b.2
  · have h2 : ¬ b.2 < a.2 := by omega
    have h3 : ¬ b.2 = a.2 := by omega
    simp [h2, h3]
  · by_cases h4 : a.2 = b.2
    · have h2 : ¬ b.2 < a.2 := by omega
      simp [h1, h4] at h
      simp [h2, h4.symm, strLt_asymm _ _ h]
    · simp [h1, h4] at h

/-- Inserting an entry above every existing entry appends it at the end. -/
theorem zinsert_of_forall_lt (m : Str) (s : Nat) (z : ZSet)
    (h : ∀ e ∈ z, entryLt e (m, s) = true) :
    zinsert m s z = z ++ [(m, s)] := by
  induction z with
  | nil => rfl
  | cons e rest ih =>
    have he : entryLt e (m, s) = true := h e (by simp)
    have hne : entryLt (m, s) e = false := entryLt_asymm _ _ he
    simp [zinsert, hne]
    exact ih (fun x hx => h x (by simp [hx]))

/-- Scoring skips a leading block free of the member. -/
theorem zscore_append_of_forall_ne (m : Str) (a b : ZSet) (h : ∀ e ∈ a, e.1 ≠ m) :
    zscore m (a ++ b) = zscore m b := by
  induction a with
  | nil => rfl
  | cons e rest ih =>
    obtain ⟨m2, s⟩ := e
    have h2 : m2 ≠ m := h (m2, s) (by simp)
    simp [zscore, h2]
    exact ih (fun x hx => h x (by simp [hx]))

/-- Hex digit rendering and parsing are inverse below 16. -/
theorem hexVal_hexDig (k : Nat) (h : k < 16) : hexVal (hexDig k) = k := by
  by_cases h1 : k < 10
  · simp only [hexVal, hexDig, if_pos h1]
    split <;> omega
  · simp only [hexVal, hexDig, if_neg h1]
    split <;> omega

/-- Decoding inverts encoding on ASCII strings. -/
theorem decode_encode (s : Str) (h : ∀ c ∈ s, c < 128) :
    decodeURIComponent (encodeURIComponent s) = s := by
  induction s with
  | nil => rfl
  | cons c rest ih =>
    have hc : c < 128 := h c (by simp)
    have hrest := ih (fun x hx => h x (by simp [hx]))
    by_cases hu : isUnreservedChar c = true
    · have hne : ¬ c = 37 := by
        intro hEq
        subst hEq
        exact absurd hu (by decide)
      have henc : encodeURIComponent (c :: rest) = c :: encodeURIComponent rest := by
        simp [encodeURIComponent, encodeChar, hu]
      rw [henc]
      have hdec : decodeURIComponent (c :: encodeURIComponent rest) =
          c :: decodeURIComponent (encodeURIComponent rest) := by
        rw [decodeURIComponent.eq_def]
        simp [hne]
      rw [hdec, hrest]
    · have henc : encodeURIComponent (c :: rest) =
          37 :: hexDig (c / 16) :: hexDig (c % 16) :: encodeURIComponent rest := by
        simp [encodeURIComponent, encodeChar, hu]
      rw [henc]
      have hdec : decodeURIComponent
            (37 :: hexDig (c / 16) :: hexDig (c % 16) :: encodeURIComponent rest) =
          (16 * hexVal (hexDig (c / 16)) + hexVal (hexDig (c % 16))) ::
            decodeURIComponent (encodeURIComponent rest) := by
        rw [decodeURIComponent.eq_def]
        simp
      rw [hdec, hrest, hexVal_hexDig _ (by omega), hexVal_hexDig _ (by omega)]
      congr 1
      omega

/-- Reading the key a ZADD just touched returns the updated set. -/
theorem getZ_storeZadd_self (st : Store) (k m : Str) (s : Nat) :
    getZ (storeZadd st k m s) k = zadd m s (getZ st k) := by
  simp [getZ, storeZadd, alookup_aset_self]

/-- EXPIRE does not change any sorted set. -/
theorem getZ_storeExpire (st : Store) (k k2 : Str) (ttl : Nat) :
    getZ (storeExpire st k ttl) k2 = getZ st k2 := by
  unfold storeExpire
  cases h2 : alookup k st.zsets <;> simp [getZ]

/-- The cap-enforcement pass leaves at most 8 entries. -/
theorem length_prune8 (z : ZSet) : (prune8 z).length ≤ 8 := by
  unfold prune8
  split
  · rename_i hgt
    simp [List.length_drop]
    omega
  · rename_i hle
    omega

/-- A successful addUserSession batch: the registry holds the pruned
post-insert set and the key TTL is reset, exactly as the source issues it. -/
theorem addUserSession_true_eq (nowMs : Nat) (userId tok : Str) (ttl : Nat) (st : Store) :
    addUserSession true nowMs userId tok ttl st =
      Except.ok
        { zsets := aset (getSessionTokensKey userId)
            (prune8 (zadd tok (nowMs / 1000 + ttl) (getZ st (getSessionTokensKey userId))))
            st.zsets,
          ttls := aset (getSessionTokensKey userId) ttl st.ttls } := by
  unfold addUserSession prune8
  simp only [if_true]
  rw [getZ_storeZadd_self]
  unfold storeZadd storeExpire storeZremrangebyrank
  simp only [alookup_aset_self]
  by_cases hgt : (zadd tok (nowMs / 1000 + ttl) (getZ st (getSessionTokensKey userId))).length >
      SESSIONS_TOKEN_LIMIT
  · simp only [if_pos hgt, SESSIONS_TOKEN_LIMIT] at *
    simp [aset_aset, hgt]
  · simp only [if_neg hgt, SESSIONS_TOKEN_LIMIT] at *
    simp [hgt]

/-- Adding a fresh token above every existing entry keeps it scored after
the cap-enforcement pass. -/
theorem zscore_prune8_zadd (tok : Str) (sc : Nat) (z : ZSet)
    (hfresh : ∀ e ∈ z, e.1 ≠ tok)
    (hmax : ∀ e ∈ z, entryLt e (tok, sc) = true) :
    zscore tok (prune8 (zadd tok sc z)) = some sc := by
  have hz : zadd tok sc z = z ++ [(tok, sc)] := by
    unfold zadd
    rw [zremMember_of_forall_ne tok z hfresh]
    exact zinsert_of_forall_lt tok sc z hmax
  unfold prune8
  rw [hz]
  split
  · rw [List.drop_append_of_le_length
        (by simp only [List.length_append, List.length_cons, List.length_nil]; omega)]
    rw [zscore_append_of_forall_ne tok _ _ (fun e he => hfresh e (List.mem_of_mem_drop he))]
    simp [zscore]
  · rw [zscore_append_of_forall_ne tok _ _ hfresh]
    simp [zscore]

/-- ZREM of an absent member leaves the store untouched. -/
theorem storeZrem_of_zscore_none (st : Store) (k m : Str)
    (h : zscore m (getZ st k) = none) : storeZrem st k m = st := by
  unfold storeZrem
  cases h2 : alookup k st.zsets with
  | none => rfl
  | some z =>
    have hz : getZ st k = z := by simp [getZ, h2]
    rw [hz] at h
    show { st with zsets := aset k (zremMember m z) st.zsets } = st
    rw [zremMember_of_forall_ne m z ((zscore_eq_none_iff m z).mp h)]
    rw [aset_of_alookup_eq k z st.zsets h2]

/-- After a ZREM the member has no score at that key. -/
theorem zscore_getZ_storeZrem_self (st : Store) (k m : Str) :
    zscore m (getZ (storeZrem st k m) k) = none := by
  unfold storeZrem
  cases h2 : alookup k st.zsets with
  | none => simp [getZ, h2, zscore]
  | some z => simp [getZ, alookup_aset_self, zscore_zremMember_self]

/-- ZREM is idempotent on the store. -/
theorem storeZrem_idem (st : Store) (k m : Str) :
    storeZrem (storeZrem st k m) k m = storeZrem st k m := by
  unfold storeZrem
  cases h2 : alookup k st.zsets with
  | none => simp [h2]
  | some z => simp [h2, alookup_aset_self, zremMember_idem, aset_aset]

/-- Validating right after a successful registry add succeeds and returns
the decoded token with the profile looked up by id. -/
theorem validate_after_add (nowMs ttl : Nat) (userId tok : Str) (S : Store)
    (users : List (Str × User)) (cookies : List SetCookie) (stB : Store)
    (hascii : ∀ c ∈ tok, c < 128)
    (hfresh : ∀ e ∈ getZ S (getSessionTokensKey userId), e.1 ≠ tok)
    (hmax : ∀ e ∈ getZ S (getSessionTokensKey userId),
      entryLt e (tok, nowMs / 1000 + ttl) = true)
    (hadd : addUserSession true nowMs userId tok ttl S = Except.ok stB)
    (hlt : nowMs / 1000 < nowMs / 1000 + ttl) :
    (validateSessionToken nowMs (encodeURIComponent tok) userId
        ⟨stB, users, cookies⟩).1 =
      ValidateResult.success (alookup userId users) tok := by
  rw [addUserSession_true_eq] at hadd
  injection hadd with h2
  subst h2
  simp only [validateSessionToken, decode_encode _ hascii]
  have hz : zscore tok
      (getZ
        { zsets :=
            aset (getSessionTokensKey userId)
              (prune8 (zadd tok (nowMs / 1000 + ttl) (getZ S (getSessionTokensKey userId))))
              S.zsets,
          ttls := aset (getSessionTokensKey userId) ttl S.ttls }
        (getSessionTokensKey userId)) = some (nowMs / 1000 + ttl) := by
    simp only [getZ, alookup_aset_self, Option.getD_some]
    exact zscore_prune8_zadd tok _ _ hfresh hmax
  simp only [checkSessionTokenValidity, hz]
  rw [if_pos hlt]
  simp

/-! Claim theorems. -/

/-- C1: the claim states that a domain error raised internally during login
propagates unchanged, so a profile store returning no record, or a
session-registry failure, surfaces as Internal.  The code contradicts the
claim: TRPCError extends Error, so the catch block's first test,
`instanceof Error`, also fires for internal TRPCErrors and rewraps them as
UNAUTHORIZED; the later `instanceof TRPCError` branch is unreachable.  This
theorem evaluates the embedded login at both failing inputs (null upsert
response; failed registry batch) and records the two branches that do match
the claim (Error-shaped failures become UNAUTHORIZED, other thrown values
become INTERNAL_SERVER_ERROR). -/
theorem C1_domain_errors_rewrapped :
    login envUpsertNull emptyApp =
      Except.error { code := ErrCode.UNAUTHORIZED, message := strOfString ("Failed to login") } ∧
    login envPipeFail emptyApp =
      Except.error
        { code := ErrCode.UNAUTHORIZED,
          message := strOfString ("Failed to add user session") } ∧
    (∀ m : Str, loginCatch (Thrown.jsError m) =
      { code := ErrCode.UNAUTHORIZED, message := m }) ∧
    loginCatch Thrown.nonError =
      { code := ErrCode.INTERNAL_SERVER_ERROR, message := strOfString ("Failed to login") } :=
  ⟨rfl, rfl, fun _ => rfl, rfl⟩

/-- C2: the claim states both login cookies expire exactly ttl seconds
(432000 s) after login, matching the registry expiry.  The code contradicts
the claim: login passes expiresIn = 432000 (seconds, per its own comment)
and createSecureCookie adds it raw to Date.now(), which is in milliseconds.
After a login at t = 0 both cookies carry the Expires instant 432000 ms
(about 7.2 minutes) while the registry entry expires at 432000 s; the two
instants differ by a factor of 1000. -/
theorem C2_cookie_expiry_mismatch :
    login envOk emptyApp = Except.ok (u1, stOk) ∧
    stOk.cookies.map SetCookie.expiresAtMs = [432000, 432000] ∧
    zscore tokOk (getZ stOk.store keyU1) = some 432000 ∧
    (432000 : Nat) ≠ 432000 * 1000 :=
  ⟨rfl, rfl, rfl, by decide⟩

/-- C3: checkValid returns true iff the token is present and its stored
expiry score is strictly greater than the current epoch-second instant;
concretely a score of 432000 is invalid both at t = 432001 s and at
t = 432000 s, and valid at t = 431999 s. -/
theorem C3_checkValid_iff :
    (∀ (st : Store) (userId token : Str) (nowMs : Nat),
      ((checkSessionTokenValidity nowMs userId token st).valid = true ↔
        ∃ s, zscore token (getZ st (getSessionTokensKey userId)) = some s ∧
          nowMs / 1000 < s)) ∧
    (checkSessionTokenValidity 432001000 u1.id [97] stC3).valid = false ∧
    (checkSessionTokenValidity 432000000 u1.id [97] stC3).valid = false ∧
    (checkSessionTokenValidity 431999000 u1.id [97] stC3).valid = true := by
  refine ⟨?_, by decide, by decide, by decide⟩
  intro st userId token nowMs
  simp only [checkSessionTokenValidity]
  split
  · rename_i s hsome
    by_cases hgt : s > nowMs / 1000
    · rw [if_pos hgt]
      constructor
      · intro
        exact ⟨s, hsome, hgt⟩
      · intro
        rfl
    · rw [if_neg hgt]
      constructor
      · intro hfalse
        simp at hfalse
      · rintro ⟨s2, hs2, hlt⟩
        rw [hsome] at hs2
        injection hs2 with hss
        omega
  · rename_i hnone
    constructor
    · intro hfalse
      simp at hfalse
    · rintro ⟨s2, hs2, hlt⟩
      rw [hnone] at hs2
      cases hs2

/-- C4: after any successful registry add at most 8 entries remain for the
user; nine consecutive logins (t = 0..8 s, tokens t0..t8) leave exactly 8
sessions, the earliest-expiring token t0 is evicted, and tokens t1..t8
remain with their scores. -/
theorem C4_session_cap :
    (∀ (st : Store) (nowMs ttl : Nat) (userId tok : Str) (st2 : Store),
      addUserSession true nowMs userId tok ttl st = Except.ok st2 →
      (getZ st2 (getSessionTokensKey userId)).length ≤ 8) ∧
    (getZ st9 keyU1).length = 8 ∧
    zscore [116, 48] (getZ st9 keyU1) = none ∧
    (∀ i < 9, 1 ≤ i → zscore [116, 48 + i] (getZ st9 keyU1) = some (i + 432000)) := by
  refine ⟨?_, by decide, by decide, by decide⟩
  intro st nowMs ttl userId tok st2 h
  rw [addUserSession_true_eq] at h
  injection h with h2
  subst h2
  simp only [getZ, alookup_aset_self, Option.getD_some]
  exact length_prune8 _

/-- C4 witness: a concrete successful add from the empty store, with the
cap bound discharged by the theorem. -/
theorem C4_session_cap_witness :
    addUserSession true 0 u1.id [97] EXPIRES_IN emptyStore = Except.ok stAdd1 ∧
    (getZ stAdd1 keyU1).length ≤ 8 :=
  ⟨rfl, C4_session_cap.1 emptyStore 0 EXPIRES_IN u1.id [97] stAdd1 rfl⟩

/-- C5: a successful add issues, as one batch, the ZADD with score
now + ttl, the cardinality read, and the TTL reset to ttl; a failed batch
surfaces as an internal error; and the concrete two-login scenario (t = 0
and t = 10 s, ttl = 432000 s) stores scores 432000 and 432010 with the set
TTL reset to 432000. -/
theorem C5_add_semantics :
    (∀ (st : Store) (nowMs ttl : Nat) (userId tok : Str),
      (zadd tok (nowMs / 1000 + ttl) (getZ st (getSessionTokensKey userId))).length ≤ 8 →
      addUserSession true nowMs userId tok ttl st =
        Except.ok
          { zsets := aset (getSessionTokensKey userId)
              (zadd tok (nowMs / 1000 + ttl) (getZ st (getSessionTokensKey userId))) st.zsets,
            ttls := aset (getSessionTokensKey userId) ttl st.ttls }) ∧
    (∀ (st : Store) (nowMs ttl : Nat) (userId tok : Str),
      addUserSession false nowMs userId tok ttl st =
        Except.error
          { code := ErrCode.INTERNAL_SERVER_ERROR,
            message := strOfString ("Failed to add user session") }) ∧
    getZ st2L keyU1 = [([97], 432000), ([98], 432010)] ∧
    alookup keyU1 st2L.ttls = some 432000 := by
  refine ⟨?_, ?_, by decide, by decide⟩
  · intro st nowMs ttl userId tok hlen
    rw [addUserSession_true_eq]
    have hp : prune8 (zadd tok (nowMs / 1000 + ttl) (getZ st (getSessionTokensKey userId))) =
        zadd tok (nowMs / 1000 + ttl) (getZ st (getSessionTokensKey userId)) := by
      unfold prune8
      rw [if_neg (by omega)]
    rw [hp]
  · intro st nowMs ttl userId tok
    rfl

/-- C5 witness: the first conjunct applied to the empty store. -/
theorem C5_add_semantics_witness :
    (zadd [97] (0 / 1000 + EXPIRES_IN) (getZ emptyStore (getSessionTokensKey u1.id))).length ≤ 8 ∧
    addUserSession true 0 u1.id [97] EXPIRES_IN emptyStore =
      Except.ok
        { zsets := aset (getSessionTokensKey u1.id)
            (zadd [97] (0 / 1000 + EXPIRES_IN) (getZ emptyStore (getSessionTokensKey u1.id)))
            emptyStore.zsets,
          ttls := aset (getSessionTokensKey u1.id) EXPIRES_IN emptyStore.ttls } :=
  ⟨by decide, C5_add_semantics.1 emptyStore 0 EXPIRES_IN u1.id [97] (by decide)⟩

/-- C6 counterexample: the unconditional claim — immediately after every
successful login, validating the emitted token succeeds — is false of the
code.  From the reachable state built by eight logins for u1 in the same
epoch second (all scores tied at 432000, members v0..v7), a ninth login in
that second succeeds, but its freshly minted token sorts lexicographically
below the ties, takes rank 0 in the post-insert set of nine, and is evicted
by the follow-up ZREMRANGEBYRANK 0 0; validating the emitted token right
after this successful login returns the negative result. -/
theorem C6_fresh_token_evicted :
    login envOk stTies = Except.ok (u1, loginResultOf envOk stTies) ∧
    zscore tokOk (getZ (loginResultOf envOk stTies).store keyU1) = none ∧
    (validateSessionToken 0 (encodeURIComponent tokOk) u1.id
        (loginResultOf envOk stTies)).1 = ValidateResult.failure :=
  ⟨rfl, rfl, rfl⟩

/-- C6 amended: immediately after a successful login, validating the
emitted session token (in its transport-encoded form) for that user
succeeds and carries the same user's profile, provided the minted token is
fresh (not already registered) and strictly outranks every existing entry
of that user (earlier expiry, or equal expiry with a lexicographically
smaller member).  The proviso is forced by the counterexample: without it
the cap-enforcement pass can evict the freshly minted token at insertion. -/
theorem C6_login_then_validate :
    ∀ (env : LoginEnv) (stA : AppState) (em : Str) (nm pic : Option Str) (u u2 : User)
      (st2 : AppState),
      env.verify = VerifyOutcome.verified (some em) nm pic →
      env.upsertResp = some u →
      env.pipeOk = true →
      (∀ c ∈ generateSessionToken env.hash u.id env.nowMs env.rand, c < 128) →
      (∀ e ∈ getZ stA.store (getSessionTokensKey u.id),
        e.1 ≠ generateSessionToken env.hash u.id env.nowMs env.rand) →
      (∀ e ∈ getZ stA.store (getSessionTokensKey u.id),
        entryLt e (generateSessionToken env.hash u.id env.nowMs env.rand,
          env.nowMs / 1000 + EXPIRES_IN) = true) →
      login env stA = Except.ok (u2, st2) →
      u2 = u ∧
      (validateSessionToken env.nowMs
          (encodeURIComponent (generateSessionToken env.hash u.id env.nowMs env.rand))
          u.id st2).1 =
        ValidateResult.success (some u)
          (generateSessionToken env.hash u.id env.nowMs env.rand) := by
  intro env stA em nm pic u u2 st2 hver hup hpipe hascii hfresh hmax hlogin
  simp only [login, loginTry, hver, hup, hpipe] at hlogin
  rw [addUserSession_true_eq] at hlogin
  simp only [Except.ok.injEq, Prod.mk.injEq] at hlogin
  obtain ⟨hu, hst⟩ := hlogin
  subst hst
  refine ⟨hu.symm, ?_⟩
  have hvalid := validate_after_add env.nowMs EXPIRES_IN u.id
    (generateSessionToken env.hash u.id env.nowMs env.rand) stA.store
    (aset u.id u stA.users) (stA.cookies ++
      [createSecureCookie env.nowMs EXPIRES_IN SESSION_TOKEN_COOKIE_KEY
        (encodeURIComponent (generateSessionToken env.hash u.id env.nowMs env.rand)),
       createSecureCookie env.nowMs EXPIRES_IN USER_ID_COOKIE_KEY u.id])
    _ hascii hfresh hmax (addUserSession_true_eq env.nowMs u.id _ EXPIRES_IN stA.store)
    (by unfold EXPIRES_IN; omega)
  rw [alookup_aset_self] at hvalid
  exact hvalid

/-- C6 witness: a successful concrete login from the empty state, followed
by validation of the emitted token. -/
theorem C6_login_then_validate_witness :
    login envOk emptyApp = Except.ok (u1, stOk) ∧
    (validateSessionToken 0 (encodeURIComponent tokOk) u1.id stOk).1 =
      ValidateResult.success (some u1) tokOk :=
  ⟨rfl, ((C6_login_then_validate envOk emptyApp (strOfString ("e")) none none u1 u1 stOk
      rfl rfl rfl (by decide) (by decide) (by decide) rfl).2)⟩

/-- C7: after logout, validating the just-removed token returns the
negative result, and logging out twice leaves the same registry state as
logging out once (the removal is idempotent and error-free: the model is a
total function). -/
theorem C7_logout_idempotent_invalidate :
    ∀ (stA : AppState) (userId sessionToken : Str) (nowMs : Nat),
      ((∀ c ∈ sessionToken, c < 128) →
        (validateSessionToken nowMs (encodeURIComponent sessionToken) userId
            (logout userId sessionToken stA)).1 = ValidateResult.failure) ∧
      (logout userId sessionToken (logout userId sessionToken stA)).store =
        (logout userId sessionToken stA).store := by
  intro stA userId sessionToken nowMs
  constructor
  · intro hascii
    simp only [validateSessionToken, decode_encode _ hascii]
    have hz : zscore sessionToken
        (getZ (logout userId sessionToken stA).store (getSessionTokensKey userId)) = none := by
      simp only [logout, deleteSessionToken]
      exact zscore_getZ_storeZrem_self stA.store _ sessionToken
    simp only [checkSessionTokenValidity, hz]
    simp
  · simp only [logout, deleteSessionToken]
    exact storeZrem_idem stA.store _ sessionToken

/-- C7 witness: logout of a token from a state where it is absent, then
validation returns the negative result. -/
theorem C7_logout_idempotent_invalidate_witness :
    (∀ c ∈ ([97] : Str), c < 128) ∧
    (validateSessionToken 0 (encodeURIComponent [97]) u1.id
        (logout u1.id [97] emptyApp)).1 = ValidateResult.failure :=
  ⟨by decide, (C7_logout_idempotent_invalidate emptyApp u1.id [97] 0).1 (by decide)⟩

/-- C8 counterexample: for an absent (userId, token) pair the claim says no
store mutation is issued, but checkValid issues a ZREM command on the false
path unconditionally: at the concrete absent input the issued command trace
contains the removal command. -/
theorem C8_absent_zrem_issued :
    zscore [97] (getZ emptyStore (getSessionTokensKey [117])) = none ∧
    (checkSessionTokenValidity 0 [117] [97] emptyStore).issued =
      [RedisCmd.zscoreCmd (getSessionTokensKey [117]) [97],
       RedisCmd.zremCmd (getSessionTokensKey [117]) [97]] ∧
    RedisCmd.zremCmd (getSessionTokensKey [117]) [97] ∈
      (checkSessionTokenValidity 0 [117] [97] emptyStore).issued :=
  ⟨rfl, rfl, by decide⟩

/-- C8 amended: for an absent pair checkValid returns false and leaves the
registry state unchanged (the removal command it still issues is a no-op);
a present-but-expired entry is removed before returning false. -/
theorem C8_amended_frame :
    ∀ (st : Store) (userId token : Str) (nowMs : Nat),
      (zscore token (getZ st (getSessionTokensKey userId)) = none →
        (checkSessionTokenValidity nowMs userId token st).valid = false ∧
        (checkSessionTokenValidity nowMs userId token st).store = st) ∧
      (∀ s, zscore token (getZ st (getSessionTokensKey userId)) = some s →
        s ≤ nowMs / 1000 →
        (checkSessionTokenValidity nowMs userId token st).valid = false ∧
        zscore token
          (getZ (checkSessionTokenValidity nowMs userId token st).store
            (getSessionTokensKey userId)) = none) := by
  intro st userId token nowMs
  constructor
  · intro hnone
    refine ⟨?_, ?_⟩
    · simp [checkSessionTokenValidity, hnone]
    · simp only [checkSessionTokenValidity, hnone]
      exact storeZrem_of_zscore_none st _ token hnone
  · intro s hsome hle
    simp only [checkSessionTokenValidity, hsome]
    rw [if_neg (by omega)]
    exact ⟨rfl, zscore_getZ_storeZrem_self st _ token⟩

/-- C8 witness: the amended statement applied at the concrete absent input. -/
theorem C8_amended_frame_witness :
    zscore [97] (getZ emptyStore (getSessionTokensKey [117])) = none ∧
    (checkSessionTokenValidity 0 [117] [97] emptyStore).valid = false ∧
    (checkSessionTokenValidity 0 [117] [97] emptyStore).store = emptyStore :=
  ⟨rfl, ((C8_amended_frame emptyStore [117] [97] 0).1 rfl).1,
    ((C8_amended_frame emptyStore [117] [97] 0).1 rfl).2⟩

/-- C9: the generated token is the one-way hash of the combination of the
user id, the timestamp and the random component, and for any injective
hash, calls with pairwise-distinct random components produce
pairwise-distinct tokens. -/
theorem C9_token_distinctness :
    ∀ (hash : Str → Str), Function.Injective hash →
    ∀ (userId : Str) (nowMs : Nat) (rs : List Str),
      rs.Pairwise (fun a b => a ≠ b) →
      (∀ r, generateSessionToken hash userId nowMs r =
        hash (userId ++ [45] ++ strOfNat nowMs ++ [45] ++ r)) ∧
      (rs.map (generateSessionToken hash userId nowMs)).Pairwise (fun a b => a ≠ b) := by
  intro hash hinj userId nowMs rs hpw
  constructor
  · intro r
    rfl
  · refine List.Pairwise.map _ ?_ hpw
    intro a b hne hEq
    apply hne
    have hraw : mkRawToken userId nowMs a = mkRawToken userId nowMs b := hinj hEq
    unfold mkRawToken at hraw
    exact List.append_cancel_left hraw

/-- C9 witness: three distinct random components through the identity hash
give three distinct tokens. -/
theorem C9_token_distinctness_witness :
    ([[48], [49], [50]] : List Str).Pairwise (fun a b => a ≠ b) ∧
    (([[48], [49], [50]] : List Str).map (generateSessionToken idHash [117] 0)).Pairwise
      (fun a b => a ≠ b) :=
  ⟨by decide, (C9_token_distinctness idHash (fun _ _ h => h) [117] 0 [[48], [49], [50]]
      (by decide)).2⟩

/-- C10: whenever validateSessionToken returns the positive result, its
sessionToken field is the decodeURIComponent of the transport-encoded
input; and the positive result can carry userInfo = none when the profile
store has no record (shown at a concrete state with a live token and an
empty profile store). -/
theorem C10_validate_success_shape :
    (∀ (nowMs : Nat) (enc userId : Str) (stA : AppState) (info : Option User) (tok : Str)
        (stB : AppState),
      validateSessionToken nowMs enc userId stA = (ValidateResult.success info tok, stB) →
      tok = decodeURIComponent enc) ∧
    (validateSessionToken 0 [97] u1.id stC10).1 =
      ValidateResult.success none (decodeURIComponent [97]) ∧
    alookup u1.id stC10.users = none := by
  refine ⟨?_, rfl, rfl⟩
  intro nowMs enc userId stA info tok stB h
  simp only [validateSessionToken] at h
  split at h
  · rw [Prod.mk.injEq] at h
    obtain ⟨h1, h2⟩ := h
    injection h1 with hinfo htok
    exact htok.symm
  · rw [Prod.mk.injEq] at h
    obtain ⟨h1, h2⟩ := h
    cases h1

/-- C10 witness: the universal part applied at the concrete state. -/
theorem C10_validate_success_shape_witness :
    validateSessionToken 0 [97] u1.id stC10 =
      (ValidateResult.success none [97], stC10) ∧
    ([97] : Str) = decodeURIComponent [97] :=
  ⟨rfl, C10_validate_success_shape.1 0 [97] u1.id stC10 none [97] stC10 rfl⟩

end FirebaseAuth
